import Mathlib

/-!
# Audit facade (`vendor/github.com/mattermost/mattermost-server/v6/audit/audit.go`)

A shallow embedding of the `Audit` facade and proofs about what it submits to the
wrapped logger and how it resolves queue-full and error conditions.

Modelling conventions.

* The facade object `*a`, everything outside the facade (logger internals, the
  embedding application) and the chronological list of calls the facade makes
  across its boundary are the three components of `State`.
* A Go method with receiver `a *Audit` is a function on `State`; a method that
  dereferences `a.logger` returns `none` when that handle is `nil` (the Go
  program panics there).
* Calls into the collaborators (`a.logger.*`, the two callback fields,
  `mlog.Error`) are recorded as `Event`s. What the application's callbacks do is
  an arbitrary function on the outside world `σ`.
* A logger operation is a `LoggerRun`: between the call and the return the logger
  changes the outside world and may call the handlers registered with it, as
  often as it likes, going on according to what they answer. `runLogger` plays
  such a run against the facade's handlers.
* `for k, v := range rec.Meta` visits every entry once, in an order the Go
  runtime chooses. The choice is the argument `choose` of `rangeOrder`.
* `Init` assigns the logger handle and registers the three handlers
  `a.onLoggerError`, `a.onQueueFull` and `a.onTargetQueueFull` with the logger; it
  is the only assignment to `a.logger`, so a facade is initialised when `a.logger`
  is not `nil`, and the handlers a logger reaches are always those three methods.
-/

namespace audit

/-! ## Values that cross the facade's boundary -/

/-- Dynamic value of Go type `interface{}` held in `Meta`. -/
inductive GoAny where
  | nil
  | bool (b : Bool)
  | int (i : Int)
  | str (s : String)
  | other (dyn : String)
  deriving DecidableEq, Repr

/-- Non-nil value of Go type `error`; the Go type `error` itself is `Option GoError`,
with `none` for `nil`. -/
structure GoError where
  msg : String
  deriving DecidableEq, Repr

/-- Modelled from the spec: `mlog.Level` is declared outside this file; a level is
a severity with an identifier and a name. -/
structure Level where
  ID : Nat
  Name : String
  deriving DecidableEq, Repr

/-- Modelled from the spec: `mlog.LvlError`, the error severity at which
`mlog.Error` logs, is declared outside this file. -/
def LvlError : Level := { ID := 2, Name := "error" }

/-- Modelled from the spec: `mlog.Field` and its constructors `mlog.String`,
`mlog.Any`, `mlog.Int`, `mlog.Err` are declared outside this file. A field is the
constructor call that made it: a typed key-value pair (string, generically typed,
integer) or the error field. -/
inductive Field where
  | String (key : String) (val : String)
  | Any (key : String) (val : GoAny)
  | Int (key : String) (val : Int)
  | Err (err : Option GoError)
  deriving DecidableEq, Repr

/-- Modelled from the spec: `mlog.Target` is declared outside this file; a target
is known to the facade only through the text `fmt.Sprintf("%v", target)` renders. -/
structure Target where
  rendering : String
  deriving DecidableEq, Repr

/-- The call `fmt.Sprintf("%v", target)`. -/
def fmtSprintfV (target : Target) : String := target.rendering

/-- Modelled from the spec: `mlog.LogRec` is declared outside this file; the
record the logger could not enqueue. -/
structure LogRec where
  level : Level
  msg : String
  fields : List Field
  deriving DecidableEq, Repr

/-- Modelled from the spec: `mlog.TargetCfg` is declared outside this file; each
target has a type, a severity filter and a destination. -/
structure TargetCfg where
  targetType : String
  levels : List Level
  destination : String
  deriving DecidableEq, Repr

/-- Modelled from the spec: `mlog.LoggerConfiguration` is declared outside this
file; a declarative set of named output targets. -/
abbrev LoggerConfiguration := List (String × TargetCfg)

/-! ## Record -/

/-- Modelled from the spec: the key constants are declared outside this file
(`record.go`); the spec lists them in §6. -/
def KeyAPIPath : String := "api-path"
/-- Modelled from the spec: see `KeyAPIPath`. -/
def KeyEvent : String := "event"
/-- Modelled from the spec: see `KeyAPIPath`. -/
def KeyStatus : String := "status"
/-- Modelled from the spec: see `KeyAPIPath`. -/
def KeyUserID : String := "user-id"
/-- Modelled from the spec: see `KeyAPIPath`. -/
def KeySessionID : String := "session-id"
/-- Modelled from the spec: see `KeyAPIPath`. -/
def KeyClient : String := "client"
/-- Modelled from the spec: see `KeyAPIPath`. -/
def KeyIPAddress : String := "ip-address"

/-- Modelled from the spec: `Meta` (`map[string]interface{}`) is declared outside
this file. A Go map is a finite set of entries with pairwise distinct keys;
`entries` lists them in some fixed order that carries no meaning. The `nil` map
and the empty map both have no entries. -/
structure Meta where
  entries : List (String × GoAny)
  nodupKeys : (entries.map Prod.fst).Nodup

/-- The `nil` map. -/
def Meta.nil : Meta := { entries := [], nodupKeys := List.nodup_nil }

/-- Modelled from the spec: `Record` is declared outside this file; its fields are
those `LogRecord` reads. A field left out of a composite literal has Go's zero
value. -/
structure Record where
  APIPath : String := ""
  Event : String := ""
  Status : String := ""
  UserID : String := ""
  SessionID : String := ""
  Client : String := ""
  IPAddress : String := ""
  Meta : Meta := Meta.nil

/-- The order in which `range` over a map yields its entries. The runtime picks
the position of every entry: `choose n` is its pick when `n` entries are already
placed. Every result is a rearrangement of `l` and every rearrangement is the
result for some `choose`. -/
def rangeOrder {α : Type} (choose : Nat → Nat) : List α → List α
  | [] => []
  | x :: xs => (rangeOrder choose xs).insertIdx (choose xs.length % (xs.length + 1)) x

/-! ## Collaborators and state -/

/-- Calls the facade makes across its boundary. -/
inductive Event where
  /-- The call `a.logger.Log(level, msg, fields...)`. -/
  | loggerLog (level : Level) (msg : String) (fields : List Field)
  /-- The call `a.logger.ConfigureTargets(cfg)`. -/
  | loggerConfigureTargets (cfg : LoggerConfiguration)
  /-- The call `a.logger.Flush()`. -/
  | loggerFlush
  /-- The call `a.logger.Shutdown()`. -/
  | loggerShutdown
  /-- The call `a.OnQueueFull(qname, maxQueueSize)`. -/
  | OnQueueFull (qname : String) (maxQueueSize : Int)
  /-- The call `a.OnError(err)`. -/
  | OnError (err : Option GoError)
  /-- A diagnostic on the global logger, at the given severity. -/
  | diagnostic (level : Level) (msg : String) (fields : List Field)
  deriving DecidableEq, Repr

/-- What the logger does during one of its operations, from the call to the
return. Besides changing the outside world it may call the handlers registered
with it by `Init` (`mlog.OnLoggerError(a.onLoggerError)`,
`mlog.OnQueueFull(a.onQueueFull)`, `mlog.OnTargetQueueFull(a.onTargetQueueFull)`),
and what it does next may depend on what a handler answered and on the world the
handler left. -/
inductive LoggerRun (σ : Type) (ρ : Type) where
  /-- The operation returns `out` and leaves the outside world as `env`. -/
  | ret (out : ρ) (env : σ)
  /-- Having brought the outside world to `env`, the logger calls
  `a.onLoggerError(err)` and goes on. -/
  | raiseError (env : σ) (err : Option GoError) (next : σ → LoggerRun σ ρ)
  /-- Having brought the outside world to `env`, the logger calls
  `a.onQueueFull(rec, maxQueueSize)` and goes on. -/
  | raiseQueueFull (env : σ) (rec : Option LogRec) (maxQueueSize : Int)
      (next : Bool → σ → LoggerRun σ ρ)
  /-- Having brought the outside world to `env`, the logger calls
  `a.onTargetQueueFull(target, rec, maxQueueSize)` and goes on. -/
  | raiseTargetQueueFull (env : σ) (target : Target) (rec : Option LogRec)
      (maxQueueSize : Int) (next : Bool → σ → LoggerRun σ ρ)

/-- Modelled from the spec: `mlog.Logger` is declared outside this file. The
handle offers submit-field-set-at-level, configure-targets, synchronous flush and
synchronous shutdown, and calls the three registered callbacks (logger-error,
global-queue-full, per-target-queue-full) while it works; the last three
operations report an `error`. -/
structure Logger (σ : Type) where
  Log : Level → String → List Field → σ → LoggerRun σ Unit
  ConfigureTargets : LoggerConfiguration → σ → LoggerRun σ (Option GoError)
  Flush : σ → LoggerRun σ (Option GoError)
  Shutdown : σ → LoggerRun σ (Option GoError)

/-- The struct `Audit`. A `nil` pointer or `nil` func value is `none`. -/
structure Audit (σ : Type) where
  logger : Option (Logger σ)
  OnQueueFull : Option (String → Int → σ → Bool × σ)
  OnError : Option (Option GoError → σ → σ)

/-- The facade object, the world outside it, and the calls made so far. -/
structure State (σ : Type) where
  audit : Audit σ
  env : σ
  trace : List Event

variable {σ : Type}

/-- Modelled from the spec: `mlog.Error` is declared outside this file; it logs a
diagnostic at error severity on the global logger. -/
def mlogError (msg : String) (fields : List Field) (s : State σ) : State σ :=
  { s with trace := s.trace ++ [Event.diagnostic LvlError msg fields] }

/-! ## The facade's methods -/

/-- The method `onLoggerError`. -/
def onLoggerError (err : Option GoError) (s : State σ) : State σ :=
  match s.audit.OnError with
  | some f => { s with env := f err s.env, trace := s.trace ++ [Event.OnError err] }
  | none => mlogError "Auditing error" [Field.Err err] s

/-- The method `onQueueFull`. -/
def onQueueFull (_rec : Option LogRec) (maxQueueSize : Int) (s : State σ) : Bool × State σ :=
  match s.audit.OnQueueFull with
  | some f =>
    ((f "main" maxQueueSize s.env).1,
      { s with env := (f "main" maxQueueSize s.env).2,
               trace := s.trace ++ [Event.OnQueueFull "main" maxQueueSize] })
  | none =>
    (true, mlogError "Audit logging queue full, dropping record."
      [Field.Int "queueSize" maxQueueSize] s)

/-- The method `onTargetQueueFull`. -/
def onTargetQueueFull (target : Target) (_rec : Option LogRec) (maxQueueSize : Int)
    (s : State σ) : Bool × State σ :=
  match s.audit.OnQueueFull with
  | some f =>
    ((f (fmtSprintfV target) maxQueueSize s.env).1,
      { s with env := (f (fmtSprintfV target) maxQueueSize s.env).2,
               trace := s.trace ++ [Event.OnQueueFull (fmtSprintfV target) maxQueueSize] })
  | none =>
    (true, mlogError "Audit logging queue full for target, dropping record."
      [Field.Any "target" (GoAny.other target.rendering), Field.Int "queueSize" maxQueueSize] s)

/-- A logger operation played against the facade: every handler the logger calls
is the facade's own method, run on the state as it is at that moment. -/
def runLogger {ρ : Type} : LoggerRun σ ρ → State σ → ρ × State σ
  | LoggerRun.ret out env, s => (out, { s with env := env })
  | LoggerRun.raiseError env err next, s =>
    runLogger (next (onLoggerError err { s with env := env }).env)
      (onLoggerError err { s with env := env })
  | LoggerRun.raiseQueueFull env rec maxQueueSize next, s =>
    runLogger
      (next (onQueueFull rec maxQueueSize { s with env := env }).1
        (onQueueFull rec maxQueueSize { s with env := env }).2.env)
      (onQueueFull rec maxQueueSize { s with env := env }).2
  | LoggerRun.raiseTargetQueueFull env target rec maxQueueSize next, s =>
    runLogger
      (next (onTargetQueueFull target rec maxQueueSize { s with env := env }).1
        (onTargetQueueFull target rec maxQueueSize { s with env := env }).2.env)
      (onTargetQueueFull target rec maxQueueSize { s with env := env }).2

/-- The method `LogRecord`. -/
def LogRecord (level : Level) (rec : Record) (choose : Nat → Nat) (s : State σ) :
    Option (State σ) :=
  let flds : List Field := [
    Field.String KeyAPIPath rec.APIPath,
    Field.String KeyEvent rec.Event,
    Field.String KeyStatus rec.Status,
    Field.String KeyUserID rec.UserID,
    Field.String KeySessionID rec.SessionID,
    Field.String KeyClient rec.Client,
    Field.String KeyIPAddress rec.IPAddress]
  let flds := (rangeOrder choose rec.Meta.entries).foldl
    (fun flds kv => flds ++ [Field.Any kv.1 kv.2]) flds
  match s.audit.logger with
  | none => none
  | some lg =>
    some (runLogger (lg.Log level "" flds s.env)
      { s with trace := s.trace ++ [Event.loggerLog level "" flds] }).2

/-- The method `Log`. -/
def Log (level : Level) (path evt status userID sessionID : String) (meta : Meta)
    (choose : Nat → Nat) (s : State σ) : Option (State σ) :=
  LogRecord level
    { APIPath := path,
      Event := evt,
      Status := status,
      UserID := userID,
      SessionID := sessionID,
      Meta := meta } choose s

/-- The method `Configure`. -/
def Configure (cfg : LoggerConfiguration) (s : State σ) : Option (Option GoError × State σ) :=
  match s.audit.logger with
  | none => none
  | some lg =>
    some (runLogger (lg.ConfigureTargets cfg s.env)
      { s with trace := s.trace ++ [Event.loggerConfigureTargets cfg] })

/-- The method `Flush`. -/
def Flush (s : State σ) : Option (Option GoError × State σ) :=
  match s.audit.logger with
  | none => none
  | some lg =>
    let r := runLogger (lg.Flush s.env) { s with trace := s.trace ++ [Event.loggerFlush] }
    let err := r.1
    if err ≠ none then
      some (err, onLoggerError err r.2)
    else
      some (err, r.2)

/-- The method `Shutdown`. -/
def Shutdown (s : State σ) : Option (Option GoError × State σ) :=
  match s.audit.logger with
  | none => none
  | some lg =>
    let r := runLogger (lg.Shutdown s.env) { s with trace := s.trace ++ [Event.loggerShutdown] }
    let err := r.1
    if err ≠ none then
      some (err, onLoggerError err r.2)
    else
      some (err, r.2)

/-! ## What the claims are stated with -/

/-- The seven fixed-key fields as §6 of the spec lists them (api-path, event,
status, user-id, session-id, client, ip-address, in this order), each a string
field carrying the record's own value. -/
def specFixedFields (rec : Record) : List Field :=
  [Field.String "api-path" rec.APIPath,
   Field.String "event" rec.Event,
   Field.String "status" rec.Status,
   Field.String "user-id" rec.UserID,
   Field.String "session-id" rec.SessionID,
   Field.String "client" rec.Client,
   Field.String "ip-address" rec.IPAddress]

/-- The seven fixed keys of §6 of the spec. -/
def specFixedKeys : List String :=
  ["api-path", "event", "status", "user-id", "session-id", "client", "ip-address"]

/-- One generically typed field per metadata entry, key and value unchanged. -/
def specMetaFields (m : Meta) : List Field :=
  m.entries.map (fun kv => Field.Any kv.1 kv.2)

/-- The state after the single call `lg.Log(level, msg, flds...)` made from `s`:
the call, then whatever the logger does during it. -/
def submitted (lg : Logger σ) (level : Level) (msg : String) (flds : List Field)
    (s : State σ) : State σ :=
  (runLogger (lg.Log level msg flds s.env)
    { s with trace := s.trace ++ [Event.loggerLog level msg flds] }).2

/-- The error returned by, and the state after, the single call
`lg.ConfigureTargets(cfg)` made from `s`. -/
def configured (lg : Logger σ) (cfg : LoggerConfiguration) (s : State σ) :
    Option GoError × State σ :=
  runLogger (lg.ConfigureTargets cfg s.env)
    { s with trace := s.trace ++ [Event.loggerConfigureTargets cfg] }

/-- The error returned by, and the state after, the single call `lg.Flush()` made
from `s`. -/
def flushed (lg : Logger σ) (s : State σ) : Option GoError × State σ :=
  runLogger (lg.Flush s.env) { s with trace := s.trace ++ [Event.loggerFlush] }

/-- The error returned by, and the state after, the single call `lg.Shutdown()`
made from `s`. -/
def shutDown (lg : Logger σ) (s : State σ) : Option GoError × State σ :=
  runLogger (lg.Shutdown s.env) { s with trace := s.trace ++ [Event.loggerShutdown] }

/-- Whether an event is a call of one of the logger's four operations. -/
def isLoggerCall : Event → Bool
  | Event.loggerLog _ _ _ => true
  | Event.loggerConfigureTargets _ => true
  | Event.loggerFlush => true
  | Event.loggerShutdown => true
  | _ => false

/-- Whether an event is an invocation of the error-reporting policy's outlets: a
call of `OnError` or a diagnostic on the global logger. -/
def isErrorReport : Event → Bool
  | Event.OnError _ => true
  | Event.diagnostic _ _ _ => true
  | _ => false

/-- The single call the error-reporting policy makes for `err`: `OnError` when the
application has set it, otherwise the default diagnostic at error severity. -/
def specErrorReport (a : Audit σ) (err : Option GoError) : Event :=
  match a.OnError with
  | some _ => Event.OnError err
  | none => Event.diagnostic LvlError "Auditing error" [Field.Err err]

/-- The outside world after the error-reporting policy has handled `err`: what
`OnError` makes of it when set, untouched otherwise. -/
def specErrorReportEnv (a : Audit σ) (err : Option GoError) (env : σ) : σ :=
  match a.OnError with
  | some f => f err env
  | none => env

/-! ## A concrete world for the examples -/

/-- The outside world of the examples: the records the logger has queued, the
errors the application's `OnError` has seen and the queue-full conditions its
`OnQueueFull` has seen. -/
structure Outside where
  queued : List LogRec
  reported : List (Option GoError)
  full : List (String × Int)
  deriving DecidableEq, Repr

def Outside.start : Outside := { queued := [], reported := [], full := [] }

def timeoutError : GoError := { msg := "flush timeout" }

def badTargetError : GoError := { msg := "invalid target" }

def writeError : GoError := { msg := "write failed" }

/-- A logger that queues what is submitted and whose configure, flush and shutdown
all fail, calling no handler. -/
def failingLogger : Logger Outside :=
  { Log := fun level msg flds w =>
      LoggerRun.ret () { w with queued := w.queued ++ [LogRec.mk level msg flds] },
    ConfigureTargets := fun _ w => LoggerRun.ret (some badTargetError) w,
    Flush := fun w => LoggerRun.ret (some timeoutError) w,
    Shutdown := fun w => LoggerRun.ret (some timeoutError) w }

/-- A logger that queues what is submitted and whose configure, flush and shutdown
all succeed, calling no handler; flush and shutdown empty the queue. -/
def healthyLogger : Logger Outside :=
  { Log := fun level msg flds w =>
      LoggerRun.ret () { w with queued := w.queued ++ [LogRec.mk level msg flds] },
    ConfigureTargets := fun _ w => LoggerRun.ret none w,
    Flush := fun w => LoggerRun.ret none { w with queued := [] },
    Shutdown := fun w => LoggerRun.ret none { w with queued := [] } }

/-- A logger with a queue of one record and a target that cannot be written. A
submission to the full queue asks the queue-full handler and drops the record
when told to. A flush hands the write failure to the error handler and returns
nil; a shutdown does the same and then fails with a timeout. -/
def noisyLogger : Logger Outside :=
  { Log := fun level msg flds w =>
      if w.queued.length < 1 then
        LoggerRun.ret () { w with queued := w.queued ++ [LogRec.mk level msg flds] }
      else
        LoggerRun.raiseQueueFull w (some (LogRec.mk level msg flds)) 1
          (fun drop w1 =>
            LoggerRun.ret ()
              (if drop then w1
               else { w1 with queued := w1.queued ++ [LogRec.mk level msg flds] })),
    ConfigureTargets := fun _ w => LoggerRun.ret none w,
    Flush := fun w =>
      LoggerRun.raiseError w (some writeError)
        (fun w1 => LoggerRun.ret none { w1 with queued := [] }),
    Shutdown := fun w =>
      LoggerRun.raiseError w (some writeError)
        (fun w1 => LoggerRun.ret (some timeoutError) w1) }

/-- An application callback that notes the condition and elects to block unless the
queue is the main queue. -/
def noteQueueFull : String → Int → Outside → Bool × Outside :=
  fun qname maxQueueSize w => (qname == "main", { w with full := w.full ++ [(qname, maxQueueSize)] })

/-- An application callback that notes the error. -/
def noteError : Option GoError → Outside → Outside :=
  fun err w => { w with reported := w.reported ++ [err] }

/-- A facade with a failing logger and no callbacks set. -/
def bareFailing : State Outside :=
  { audit := { logger := some failingLogger, OnQueueFull := none, OnError := none },
    env := Outside.start, trace := [] }

/-- A facade with a failing logger and both callbacks set. -/
def hookedFailing : State Outside :=
  { audit := { logger := some failingLogger, OnQueueFull := some noteQueueFull,
               OnError := some noteError },
    env := Outside.start, trace := [] }

/-- A facade with a healthy logger and both callbacks set. -/
def hookedHealthy : State Outside :=
  { audit := { logger := some healthyLogger, OnQueueFull := some noteQueueFull,
               OnError := some noteError },
    env := Outside.start, trace := [] }

/-- A facade with the noisy logger and no callbacks set. -/
def bareNoisy : State Outside :=
  { audit := { logger := some noisyLogger, OnQueueFull := none, OnError := none },
    env := Outside.start, trace := [] }

/-- A facade with the noisy logger and both callbacks set. -/
def hookedNoisy : State Outside :=
  { audit := { logger := some noisyLogger, OnQueueFull := some noteQueueFull,
               OnError := some noteError },
    env := Outside.start, trace := [] }

def LvlInfo : Level := { ID := 4, Name := "info" }

/-- Metadata whose keys repeat two of the fixed keys. -/
def clashingMeta : Meta :=
  { entries := [("event", GoAny.str "forged"), ("user-id", GoAny.int 7), ("note", GoAny.bool true)],
    nodupKeys := by decide }

def clashingRecord : Record :=
  { APIPath := "/api/v4/users", Event := "login", Status := "success", UserID := "u1",
    SessionID := "s1", Client := "cli", IPAddress := "10.0.0.1", Meta := clashingMeta }

/-- An iteration order that is not the order of `entries`. -/
def someOrder : Nat → Nat := fun n => (n + 1) / 2

/-! ## The iteration order of `range` -/

theorem rangeOrder_perm {α : Type} (choose : Nat → Nat) (l : List α) :
    (rangeOrder choose l).Perm l := by
  induction l with
  | nil => exact List.Perm.refl _
  | cons x xs ih =>
    have hlen : (rangeOrder choose xs).length = xs.length := ih.length_eq
    have hle : choose xs.length % (xs.length + 1) ≤ (rangeOrder choose xs).length := by
      rw [hlen]
      exact Nat.le_of_lt_succ (Nat.mod_lt _ (Nat.succ_pos _))
    exact (List.perm_insertIdx x (rangeOrder choose xs) hle).trans (List.Perm.cons x ih)

theorem rangeOrder_length {α : Type} (choose : Nat → Nat) (l : List α) :
    (rangeOrder choose l).length = l.length :=
  (rangeOrder_perm choose l).length_eq

theorem rangeOrder_congr {α : Type} (c₁ c₂ : Nat → Nat) (l : List α)
    (h : ∀ n, n < l.length → c₁ n = c₂ n) : rangeOrder c₁ l = rangeOrder c₂ l := by
  induction l with
  | nil => rfl
  | cons x xs ih =>
    have hxs : rangeOrder c₁ xs = rangeOrder c₂ xs :=
      ih (fun n hn => h n (Nat.lt_succ_of_lt hn))
    have hx : c₁ xs.length = c₂ xs.length := h xs.length (Nat.lt_succ_self _)
    simp only [rangeOrder, hxs, hx]

theorem insertIdx_length_append {α : Type} (x : α) (a b : List α) :
    (a ++ b).insertIdx a.length x = a ++ x :: b := by
  induction a with
  | nil => rfl
  | cons y a ih => simp only [List.cons_append, List.length_cons, List.insertIdx_succ_cons, ih]

/-- Every rearrangement of the entries is the iteration order for some choice of
the runtime: the model of `range` leaves no order out. -/
theorem rangeOrder_complete {α : Type} (l p : List α) (h : p.Perm l) :
    ∃ choose : Nat → Nat, rangeOrder choose l = p := by
  induction l generalizing p with
  | nil => exact ⟨fun _ => 0, (List.Perm.eq_nil h).symm⟩
  | cons x xs ih =>
    have hx : x ∈ p := h.symm.subset (List.mem_cons_self x xs)
    obtain ⟨a, b, rfl⟩ := List.append_of_mem hx
    have hab : (a ++ b).Perm xs := (List.perm_middle.symm.trans h).cons_inv
    obtain ⟨c, hc⟩ := ih (a ++ b) hab
    have hlen : a.length + b.length = xs.length := by
      rw [← List.length_append]; exact hab.length_eq
    refine ⟨fun n => if n = xs.length then a.length else c n, ?_⟩
    have hcongr : rangeOrder (fun n => if n = xs.length then a.length else c n) xs
        = rangeOrder c xs :=
      rangeOrder_congr _ _ xs (fun n hn => by simp [Nat.ne_of_lt hn])
    have hmod : a.length % (xs.length + 1) = a.length := Nat.mod_eq_of_lt (by omega)
    simp only [rangeOrder, hcongr, hc, if_true, hmod]
    exact insertIdx_length_append x a b

/-- The loop `for k, v := range m { flds = append(flds, mlog.Any(k, v)) }` appends
one generically typed field per visited entry. -/
theorem foldl_append_any (l : List (String × GoAny)) (init : List Field) :
    l.foldl (fun flds kv => flds ++ [Field.Any kv.1 kv.2]) init
      = init ++ l.map (fun kv => Field.Any kv.1 kv.2) := by
  induction l generalizing init with
  | nil => simp
  | cons kv l ih => simp [List.foldl_cons, ih]

/-! ## The handlers and the logger's runs -/

/-- The error-reporting policy appends its single report to the calls made so far
and hands the outside world to `OnError` when that is set. -/
theorem onLoggerError_eq_report (err : Option GoError) (s : State σ) :
    onLoggerError err s
      = { s with env := specErrorReportEnv s.audit err s.env,
                 trace := s.trace ++ [specErrorReport s.audit err] } := by
  unfold onLoggerError specErrorReport specErrorReportEnv mlogError
  cases s.audit.OnError <;> rfl

theorem specErrorReport_isErrorReport (a : Audit σ) (err : Option GoError) :
    isErrorReport (specErrorReport a err) = true := by
  unfold specErrorReport
  cases a.OnError <;> rfl

theorem specErrorReport_not_loggerCall (a : Audit σ) (err : Option GoError) :
    isLoggerCall (specErrorReport a err) = false := by
  unfold specErrorReport
  cases a.OnError <;> rfl

theorem onQueueFull_effect (rec : Option LogRec) (maxQueueSize : Int) (s : State σ) :
    (onQueueFull rec maxQueueSize s).2.audit = s.audit ∧
    ∃ ev, (onQueueFull rec maxQueueSize s).2.trace = s.trace ++ [ev] ∧
      isLoggerCall ev = false := by
  unfold onQueueFull mlogError
  cases s.audit.OnQueueFull with
  | none => exact ⟨rfl, _, rfl, rfl⟩
  | some f => exact ⟨rfl, _, rfl, rfl⟩

theorem onTargetQueueFull_effect (target : Target) (rec : Option LogRec) (maxQueueSize : Int)
    (s : State σ) :
    (onTargetQueueFull target rec maxQueueSize s).2.audit = s.audit ∧
    ∃ ev, (onTargetQueueFull target rec maxQueueSize s).2.trace = s.trace ++ [ev] ∧
      isLoggerCall ev = false := by
  unfold onTargetQueueFull mlogError
  cases s.audit.OnQueueFull with
  | none => exact ⟨rfl, _, rfl, rfl⟩
  | some f => exact ⟨rfl, _, rfl, rfl⟩

/-- Whatever the logger does during an operation, the facade object stays what it
was and the calls made so far grow only by calls the handlers make: no handler
calls the logger. -/
theorem runLogger_effect {ρ : Type} (r : LoggerRun σ ρ) (s : State σ) :
    (runLogger r s).2.audit = s.audit ∧
    ∃ raised, (runLogger r s).2.trace = s.trace ++ raised ∧
      ∀ ev ∈ raised, isLoggerCall ev = false := by
  induction r generalizing s with
  | ret out env => exact ⟨rfl, [], by simp [runLogger], by simp⟩
  | raiseError env err next ih =>
    obtain ⟨ha, raised, ht, hr⟩ :=
      ih (onLoggerError err { s with env := env }).env (onLoggerError err { s with env := env })
    simp only [runLogger]
    rw [onLoggerError_eq_report] at ha ht ⊢
    refine ⟨ha, specErrorReport s.audit err :: raised, ?_, ?_⟩
    · rw [ht]; simp
    · intro ev hev
      rcases List.mem_cons.mp hev with h | h
      · rw [h]; exact specErrorReport_not_loggerCall _ _
      · exact hr ev h
  | raiseQueueFull env rec maxQueueSize next ih =>
    obtain ⟨ha0, ev0, ht0, hr0⟩ := onQueueFull_effect rec maxQueueSize { s with env := env }
    obtain ⟨ha, raised, ht, hr⟩ :=
      ih (onQueueFull rec maxQueueSize { s with env := env }).1
        (onQueueFull rec maxQueueSize { s with env := env }).2.env
        (onQueueFull rec maxQueueSize { s with env := env }).2
    simp only [runLogger]
    refine ⟨ha.trans ha0, ev0 :: raised, ?_, ?_⟩
    · rw [ht, ht0]; simp
    · intro ev hev
      rcases List.mem_cons.mp hev with h | h
      · rw [h]; exact hr0
      · exact hr ev h
  | raiseTargetQueueFull env target rec maxQueueSize next ih =>
    obtain ⟨ha0, ev0, ht0, hr0⟩ :=
      onTargetQueueFull_effect target rec maxQueueSize { s with env := env }
    obtain ⟨ha, raised, ht, hr⟩ :=
      ih (onTargetQueueFull target rec maxQueueSize { s with env := env }).1
        (onTargetQueueFull target rec maxQueueSize { s with env := env }).2.env
        (onTargetQueueFull target rec maxQueueSize { s with env := env }).2
    simp only [runLogger]
    refine ⟨ha.trans ha0, ev0 :: raised, ?_, ?_⟩
    · rw [ht, ht0]; simp
    · intro ev hev
      rcases List.mem_cons.mp hev with h | h
      · rw [h]; exact hr0
      · exact hr ev h

/-- After a logger call recorded as `call`, the calls made so far are the earlier
ones, then `call`, then what the handlers did while the logger ran. -/
theorem runLogger_after_call {ρ : Type} (r : LoggerRun σ ρ) (s : State σ) (call : Event) :
    (runLogger r { s with trace := s.trace ++ [call] }).2.audit = s.audit ∧
    ∃ raised,
      (runLogger r { s with trace := s.trace ++ [call] }).2.trace = s.trace ++ call :: raised ∧
      ∀ ev ∈ raised, isLoggerCall ev = false := by
  obtain ⟨ha, raised, ht, hr⟩ := runLogger_effect r { s with trace := s.trace ++ [call] }
  exact ⟨ha, raised, by rw [ht]; simp, hr⟩

/-! ## `LogRecord` and `Log` -/

/-- What `LogRecord` does when the logger handle is set: one call of `Log` with the
empty message and the fixed fields followed by the metadata fields in iteration
order. -/
theorem LogRecord_eq (level : Level) (rec : Record) (choose : Nat → Nat) (s : State σ)
    (lg : Logger σ) (h : s.audit.logger = some lg) :
    LogRecord level rec choose s
      = some (submitted lg level ""
          (specFixedFields rec
            ++ (rangeOrder choose rec.Meta.entries).map (fun kv => Field.Any kv.1 kv.2)) s) := by
  simp only [LogRecord, h, foldl_append_any, submitted, specFixedFields, KeyAPIPath, KeyEvent,
    KeyStatus, KeyUserID, KeySessionID, KeyClient, KeyIPAddress]

theorem LogRecord_nil_logger (level : Level) (rec : Record) (choose : Nat → Nat) (s : State σ)
    (h : s.audit.logger = none) : LogRecord level rec choose s = none := by
  simp only [LogRecord, h]

theorem specFixedFields_length (rec : Record) : (specFixedFields rec).length = 7 := rfl

/-- C1: with the logger handle set, `LogRecord` makes exactly one submission, at the
given level and with the empty message; its field sequence has length 7 plus the
number of metadata entries, starts with the seven fixed string fields carrying the
record's values in the listed order, and continues with exactly one generically
typed field per metadata entry, key and value unchanged. The calls made are the
submission followed by what the handlers did while the logger ran, none of which
is a call of the logger; when the logger calls no handler the submission is the
only call. -/
theorem LogRecord_submits_fixed_then_meta (level : Level) (rec : Record) (choose : Nat → Nat)
    (s : State σ) (lg : Logger σ) (h : s.audit.logger = some lg) :
    ∃ flds : List Field,
      LogRecord level rec choose s = some (submitted lg level "" flds s) ∧
      flds.length = 7 + rec.Meta.entries.length ∧
      flds.take 7 = specFixedFields rec ∧
      (flds.drop 7).Perm (specMetaFields rec.Meta) ∧
      (∃ raised, (submitted lg level "" flds s).trace
          = s.trace ++ Event.loggerLog level "" flds :: raised ∧
        ∀ ev ∈ raised, isLoggerCall ev = false) ∧
      (∀ env, lg.Log level "" flds s.env = LoggerRun.ret () env →
        submitted lg level "" flds s
          = { s with env := env, trace := s.trace ++ [Event.loggerLog level "" flds] }) := by
  refine ⟨_, LogRecord_eq level rec choose s lg h, ?_, ?_, ?_, ?_, ?_⟩
  · simp [specFixedFields_length, rangeOrder_length]
  · rw [List.take_left' (specFixedFields_length rec)]
  · rw [List.drop_left' (specFixedFields_length rec)]
    exact (rangeOrder_perm choose rec.Meta.entries).map _
  · exact (runLogger_after_call _ s _).2
  · intro env henv
    simp only [submitted, henv, runLogger]

theorem LogRecord_submits_fixed_then_meta_witness :
    hookedHealthy.audit.logger = some healthyLogger ∧
    ∃ flds : List Field,
      LogRecord LvlInfo clashingRecord someOrder hookedHealthy
        = some (submitted healthyLogger LvlInfo "" flds hookedHealthy) ∧
      flds.length = 7 + clashingRecord.Meta.entries.length ∧
      flds.take 7 = specFixedFields clashingRecord ∧
      (flds.drop 7).Perm (specMetaFields clashingRecord.Meta) ∧
      (∃ raised, (submitted healthyLogger LvlInfo "" flds hookedHealthy).trace
          = hookedHealthy.trace ++ Event.loggerLog LvlInfo "" flds :: raised ∧
        ∀ ev ∈ raised, isLoggerCall ev = false) ∧
      (∀ env, healthyLogger.Log LvlInfo "" flds hookedHealthy.env = LoggerRun.ret () env →
        submitted healthyLogger LvlInfo "" flds hookedHealthy
          = { hookedHealthy with
                env := env,
                trace := hookedHealthy.trace ++ [Event.loggerLog LvlInfo "" flds] }) :=
  ⟨rfl, LogRecord_submits_fixed_then_meta LvlInfo clashingRecord someOrder hookedHealthy
    healthyLogger rfl⟩

/-- C2: `Log` submits what `LogRecord` submits for the record assembled from its
arguments. Under the same iteration order the two calls coincide outright; under
any two iteration orders both make one submission at the same level with the same
empty message, and the two field sequences hold the same fields (each as often
in one as in the other). With no logger handle both fail alike. -/
theorem Log_equiv_LogRecord (level : Level) (path evt status userID sessionID : String)
    (meta : Meta) (choose₁ choose₂ : Nat → Nat) (s : State σ) :
    Log level path evt status userID sessionID meta choose₁ s
      = LogRecord level
          { APIPath := path, Event := evt, Status := status, UserID := userID,
            SessionID := sessionID, Meta := meta } choose₁ s ∧
    ((s.audit.logger = none ∧
        Log level path evt status userID sessionID meta choose₁ s = none ∧
        LogRecord level
          { APIPath := path, Event := evt, Status := status, UserID := userID,
            SessionID := sessionID, Meta := meta } choose₂ s = none) ∨
      ∃ (lg : Logger σ) (flds₁ flds₂ : List Field),
        s.audit.logger = some lg ∧
        Log level path evt status userID sessionID meta choose₁ s
          = some (submitted lg level "" flds₁ s) ∧
        LogRecord level
          { APIPath := path, Event := evt, Status := status, UserID := userID,
            SessionID := sessionID, Meta := meta } choose₂ s
          = some (submitted lg level "" flds₂ s) ∧
        flds₁.Perm flds₂) := by
  refine ⟨rfl, ?_⟩
  cases h : s.audit.logger with
  | none =>
    exact Or.inl ⟨rfl, LogRecord_nil_logger _ _ _ _ h, LogRecord_nil_logger _ _ _ _ h⟩
  | some lg =>
    refine Or.inr ⟨lg, _, _, rfl, LogRecord_eq level _ choose₁ s lg h,
      LogRecord_eq level _ choose₂ s lg h, ?_⟩
    exact List.Perm.append_left _
      (((rangeOrder_perm choose₁ meta.entries).trans
        (rangeOrder_perm choose₂ meta.entries).symm).map _)

/-- C9: when a metadata key equals one of the seven fixed keys, `LogRecord` still
submits the seven fixed fields first, with the record's own values, and the
metadata entries after them: the count is 7 plus the number of entries, positions
0 to 6 hold the fixed fields, every later position holds the field of a metadata
entry, and a generically typed field of the submission sits at position 7 or
later. -/
theorem LogRecord_meta_never_shadows_fixed (level : Level) (rec : Record) (choose : Nat → Nat)
    (s : State σ) (lg : Logger σ) (h : s.audit.logger = some lg)
    (_hclash : ∃ kv ∈ rec.Meta.entries, kv.1 ∈ specFixedKeys) :
    ∃ flds : List Field,
      LogRecord level rec choose s = some (submitted lg level "" flds s) ∧
      flds.length = 7 + rec.Meta.entries.length ∧
      (∀ i, i < 7 → flds[i]? = (specFixedFields rec)[i]?) ∧
      (∀ i, 7 ≤ i → i < flds.length →
        ∃ kv ∈ rec.Meta.entries, flds[i]? = some (Field.Any kv.1 kv.2)) ∧
      (∀ kv ∈ rec.Meta.entries, ∃ i, 7 ≤ i ∧ flds[i]? = some (Field.Any kv.1 kv.2)) ∧
      (∀ i k v, flds[i]? = some (Field.Any k v) → 7 ≤ i) := by
  refine ⟨_, LogRecord_eq level rec choose s lg h, ?_, ?_, ?_, ?_, ?_⟩
  · simp [specFixedFields_length, rangeOrder_length]
  · intro i hi
    rw [List.getElem?_append_left (by rw [specFixedFields_length]; exact hi)]
  · intro i hi hlen
    rw [List.getElem?_append_right (by rw [specFixedFields_length]; exact hi)]
    rw [List.length_append, specFixedFields_length, List.length_map] at hlen
    have hlt : i - (specFixedFields rec).length < (rangeOrder choose rec.Meta.entries).length := by
      rw [specFixedFields_length]; omega
    refine ⟨(rangeOrder choose rec.Meta.entries)[i - (specFixedFields rec).length],
      (rangeOrder_perm choose rec.Meta.entries).subset (List.getElem_mem hlt), ?_⟩
    rw [List.getElem?_map, List.getElem?_eq_getElem hlt]
    rfl
  · intro kv hkv
    have hmem : kv ∈ rangeOrder choose rec.Meta.entries :=
      (rangeOrder_perm choose rec.Meta.entries).symm.subset hkv
    obtain ⟨j, hj, hjeq⟩ := List.getElem_of_mem hmem
    refine ⟨7 + j, Nat.le_add_right 7 j, ?_⟩
    rw [List.getElem?_append_right (by rw [specFixedFields_length]; exact Nat.le_add_right 7 j)]
    rw [specFixedFields_length, Nat.add_sub_cancel_left, List.getElem?_map,
      List.getElem?_eq_getElem hj, hjeq]
    rfl
  · intro i k v hi
    by_contra hlt
    have hlt7 : i < 7 := Nat.lt_of_not_le hlt
    rw [List.getElem?_append_left (by rw [specFixedFields_length]; exact hlt7)] at hi
    have h7 : i = 0 ∨ i = 1 ∨ i = 2 ∨ i = 3 ∨ i = 4 ∨ i = 5 ∨ i = 6 := by omega
    rcases h7 with h0 | h0 | h0 | h0 | h0 | h0 | h0 <;> subst h0 <;>
      simp [specFixedFields] at hi

theorem LogRecord_meta_never_shadows_fixed_witness :
    hookedHealthy.audit.logger = some healthyLogger ∧
    (∃ kv ∈ clashingRecord.Meta.entries, kv.1 ∈ specFixedKeys) ∧
    ∃ flds : List Field,
      LogRecord LvlInfo clashingRecord someOrder hookedHealthy
        = some (submitted healthyLogger LvlInfo "" flds hookedHealthy) ∧
      flds.length = 7 + clashingRecord.Meta.entries.length ∧
      (∀ i, i < 7 → flds[i]? = (specFixedFields clashingRecord)[i]?) ∧
      (∀ i, 7 ≤ i → i < flds.length →
        ∃ kv ∈ clashingRecord.Meta.entries, flds[i]? = some (Field.Any kv.1 kv.2)) ∧
      (∀ kv ∈ clashingRecord.Meta.entries,
        ∃ i, 7 ≤ i ∧ flds[i]? = some (Field.Any kv.1 kv.2)) ∧
      (∀ i k v, flds[i]? = some (Field.Any k v) → 7 ≤ i) :=
  ⟨rfl, ⟨("event", GoAny.str "forged"), by decide, by decide⟩,
    LogRecord_meta_never_shadows_fixed LvlInfo clashingRecord someOrder hookedHealthy
      healthyLogger rfl ⟨("event", GoAny.str "forged"), by decide, by decide⟩⟩

/-- C10: with the logger handle set, the record `Log` submits has 7 fixed fields
followed by the metadata fields; the fields at positions 5 and 6 are the client
field and the ip-address field, both with the empty string as value, whatever
the arguments. -/
theorem Log_client_and_ip_empty (level : Level) (path evt status userID sessionID : String)
    (meta : Meta) (choose : Nat → Nat) (s : State σ) (lg : Logger σ)
    (h : s.audit.logger = some lg) :
    ∃ flds : List Field,
      Log level path evt status userID sessionID meta choose s
        = some (submitted lg level "" flds s) ∧
      flds.length = 7 + meta.entries.length ∧
      flds.take 5 = [Field.String "api-path" path, Field.String "event" evt,
        Field.String "status" status, Field.String "user-id" userID,
        Field.String "session-id" sessionID] ∧
      flds[5]? = some (Field.String "client" "") ∧
      flds[6]? = some (Field.String "ip-address" "") ∧
      (flds.drop 7).Perm (specMetaFields meta) := by
  refine ⟨_, LogRecord_eq level _ choose s lg h, ?_, ?_, ?_, ?_, ?_⟩
  · simp [specFixedFields_length, rangeOrder_length]
  · rfl
  · rw [List.getElem?_append_left (by rw [specFixedFields_length]; decide)]
    rfl
  · rw [List.getElem?_append_left (by rw [specFixedFields_length]; decide)]
    rfl
  · rw [List.drop_left' (specFixedFields_length _)]
    exact (rangeOrder_perm choose meta.entries).map _

theorem Log_client_and_ip_empty_witness :
    hookedHealthy.audit.logger = some healthyLogger ∧
    ∃ flds : List Field,
      Log LvlInfo "/api/v4/users" "login" "success" "u1" "s1" clashingMeta someOrder hookedHealthy
        = some (submitted healthyLogger LvlInfo "" flds hookedHealthy) ∧
      flds.length = 7 + clashingMeta.entries.length ∧
      flds.take 5 = [Field.String "api-path" "/api/v4/users", Field.String "event" "login",
        Field.String "status" "success", Field.String "user-id" "u1",
        Field.String "session-id" "s1"] ∧
      flds[5]? = some (Field.String "client" "") ∧
      flds[6]? = some (Field.String "ip-address" "") ∧
      (flds.drop 7).Perm (specMetaFields clashingMeta) :=
  ⟨rfl, Log_client_and_ip_empty LvlInfo "/api/v4/users" "login" "success" "u1" "s1" clashingMeta
    someOrder hookedHealthy healthyLogger rfl⟩

/-! ## Queue-full and error callbacks -/

/-- C4: with `OnQueueFull` set, the global handler calls it exactly once with
"main" and the given `maxQueueSize`, the per-target handler calls it exactly once
with the rendering of the target and the given `maxQueueSize`; each returns the
boolean that call returned, leaves the outside world as that call left it, and
emits no diagnostic. -/
theorem queueFull_override_used (f : String → Int → σ → Bool × σ) (target : Target)
    (rec : Option LogRec) (maxQueueSize : Int) (s : State σ)
    (h : s.audit.OnQueueFull = some f) :
    onQueueFull rec maxQueueSize s
      = ((f "main" maxQueueSize s.env).1,
          { s with env := (f "main" maxQueueSize s.env).2,
                   trace := s.trace ++ [Event.OnQueueFull "main" maxQueueSize] }) ∧
    onTargetQueueFull target rec maxQueueSize s
      = ((f target.rendering maxQueueSize s.env).1,
          { s with env := (f target.rendering maxQueueSize s.env).2,
                   trace := s.trace ++ [Event.OnQueueFull target.rendering maxQueueSize] }) := by
  constructor
  · simp only [onQueueFull, h]
  · simp only [onTargetQueueFull, h, fmtSprintfV]

theorem queueFull_override_used_witness :
    hookedFailing.audit.OnQueueFull = some noteQueueFull ∧
    onQueueFull none 100 hookedFailing
      = ((noteQueueFull "main" 100 hookedFailing.env).1,
          { hookedFailing with
              env := (noteQueueFull "main" 100 hookedFailing.env).2,
              trace := hookedFailing.trace ++ [Event.OnQueueFull "main" 100] }) ∧
    onTargetQueueFull (Target.mk "file") none 100 hookedFailing
      = ((noteQueueFull "file" 100 hookedFailing.env).1,
          { hookedFailing with
              env := (noteQueueFull "file" 100 hookedFailing.env).2,
              trace := hookedFailing.trace ++ [Event.OnQueueFull "file" 100] }) :=
  ⟨rfl, queueFull_override_used noteQueueFull (Target.mk "file") none 100 hookedFailing rfl⟩

/-- C5: with `OnQueueFull` unset, the global and the per-target handler both return
true (drop) and each emits exactly one diagnostic, at error severity; nothing else
is called and the outside world is untouched. -/
theorem queueFull_default_drops (target : Target) (rec : Option LogRec) (maxQueueSize : Int)
    (s : State σ) (h : s.audit.OnQueueFull = none) :
    onQueueFull rec maxQueueSize s
      = (true,
          { s with trace := s.trace ++ [Event.diagnostic LvlError
              "Audit logging queue full, dropping record."
              [Field.Int "queueSize" maxQueueSize]] }) ∧
    onTargetQueueFull target rec maxQueueSize s
      = (true,
          { s with trace := s.trace ++ [Event.diagnostic LvlError
              "Audit logging queue full for target, dropping record."
              [Field.Any "target" (GoAny.other target.rendering),
               Field.Int "queueSize" maxQueueSize]] }) := by
  constructor
  · simp only [onQueueFull, h, mlogError]
  · simp only [onTargetQueueFull, h, mlogError]

theorem queueFull_default_drops_witness :
    bareFailing.audit.OnQueueFull = none ∧
    onQueueFull none 100 bareFailing
      = (true,
          { bareFailing with trace := bareFailing.trace ++ [Event.diagnostic LvlError
              "Audit logging queue full, dropping record."
              [Field.Int "queueSize" 100]] }) ∧
    onTargetQueueFull (Target.mk "file") none 100 bareFailing
      = (true,
          { bareFailing with trace := bareFailing.trace ++ [Event.diagnostic LvlError
              "Audit logging queue full for target, dropping record."
              [Field.Any "target" (GoAny.other "file"), Field.Int "queueSize" 100]] }) :=
  ⟨rfl, queueFull_default_drops (Target.mk "file") none 100 bareFailing rfl⟩

/-- C6: the error-reporting policy, handed `err`: with `OnError` set it calls
`OnError` exactly once with `err` and emits no diagnostic; with `OnError` unset it
emits exactly one diagnostic, at error severity, carrying `err`, and touches
nothing else. Either way the facade object is what it was. -/
theorem onLoggerError_policy (err : Option GoError) (s : State σ) :
    (∀ f, s.audit.OnError = some f →
      onLoggerError err s
        = { s with env := f err s.env, trace := s.trace ++ [Event.OnError err] }) ∧
    (s.audit.OnError = none →
      onLoggerError err s
        = { s with trace := s.trace
              ++ [Event.diagnostic LvlError "Auditing error" [Field.Err err]] }) ∧
    (onLoggerError err s).audit = s.audit := by
  refine ⟨fun f hf => ?_, fun hn => ?_, ?_⟩
  · simp only [onLoggerError, hf]
  · simp only [onLoggerError, hn, mlogError]
  · unfold onLoggerError
    cases s.audit.OnError <;> rfl

theorem onLoggerError_policy_witness :
    hookedFailing.audit.OnError = some noteError ∧
    onLoggerError (some timeoutError) hookedFailing
      = { hookedFailing with
            env := noteError (some timeoutError) hookedFailing.env,
            trace := hookedFailing.trace ++ [Event.OnError (some timeoutError)] } ∧
    bareFailing.audit.OnError = none ∧
    onLoggerError (some timeoutError) bareFailing
      = { bareFailing with
            trace := bareFailing.trace
              ++ [Event.diagnostic LvlError "Auditing error"
                    [Field.Err (some timeoutError)]] } :=
  ⟨rfl, (onLoggerError_policy (some timeoutError) hookedFailing).1 noteError rfl,
    rfl, (onLoggerError_policy (some timeoutError) bareFailing).2.1 rfl⟩

/-! ## `Configure`, `Flush` and `Shutdown` -/

theorem Configure_eq (cfg : LoggerConfiguration) (s : State σ) (lg : Logger σ)
    (h : s.audit.logger = some lg) : Configure cfg s = some (configured lg cfg s) := by
  simp only [Configure, h, configured]

theorem Flush_eq (s : State σ) (lg : Logger σ) (h : s.audit.logger = some lg) :
    Flush s
      = if (flushed lg s).1 ≠ none then
          some ((flushed lg s).1, onLoggerError (flushed lg s).1 (flushed lg s).2)
        else
          some ((flushed lg s).1, (flushed lg s).2) := by
  simp only [Flush, h, flushed]

theorem Shutdown_eq (s : State σ) (lg : Logger σ) (h : s.audit.logger = some lg) :
    Shutdown s
      = if (shutDown lg s).1 ≠ none then
          some ((shutDown lg s).1, onLoggerError (shutDown lg s).1 (shutDown lg s).2)
        else
          some ((shutDown lg s).1, (shutDown lg s).2) := by
  simp only [Shutdown, h, shutDown]

theorem flushed_effect (lg : Logger σ) (s : State σ) :
    (flushed lg s).2.audit = s.audit ∧
    ∃ raised, (flushed lg s).2.trace = s.trace ++ Event.loggerFlush :: raised ∧
      ∀ ev ∈ raised, isLoggerCall ev = false :=
  runLogger_after_call _ s _

theorem shutDown_effect (lg : Logger σ) (s : State σ) :
    (shutDown lg s).2.audit = s.audit ∧
    ∃ raised, (shutDown lg s).2.trace = s.trace ++ Event.loggerShutdown :: raised ∧
      ∀ ev ∈ raised, isLoggerCall ev = false :=
  runLogger_after_call _ s _

theorem flushed_quiet (lg : Logger σ) (s : State σ) (out : Option GoError) (env : σ)
    (hq : lg.Flush s.env = LoggerRun.ret out env) :
    flushed lg s = (out, { s with env := env, trace := s.trace ++ [Event.loggerFlush] }) := by
  simp only [flushed, hq, runLogger]

theorem shutDown_quiet (lg : Logger σ) (s : State σ) (out : Option GoError) (env : σ)
    (hq : lg.Shutdown s.env = LoggerRun.ret out env) :
    shutDown lg s
      = (out, { s with env := env, trace := s.trace ++ [Event.loggerShutdown] }) := by
  simp only [shutDown, hq, runLogger]

theorem configured_quiet (lg : Logger σ) (cfg : LoggerConfiguration) (s : State σ)
    (out : Option GoError) (env : σ) (hq : lg.ConfigureTargets cfg s.env = LoggerRun.ret out env) :
    configured lg cfg s
      = (out, { s with env := env, trace := s.trace ++ [Event.loggerConfigureTargets cfg] }) := by
  simp only [configured, hq, runLogger]

/-- What `Flush` and `Shutdown` do once the logger call has returned the error `e`:
one report of `e`, on the state the logger call left. -/
theorem report_after_failure (s1 : State σ) (a : Audit σ) (e : GoError) (ha : s1.audit = a) :
    onLoggerError (some e) s1
      = { audit := a, env := specErrorReportEnv a (some e) s1.env,
          trace := s1.trace ++ [specErrorReport a (some e)] } := by
  rw [onLoggerError_eq_report, ha]

/-- C3: when the logger's flush (shutdown) returns the error `e`, `Flush`
(`Shutdown`) returns `e`, and after the logger call it makes exactly one further
call: the error report for `e`, which is `OnError(e)` when `OnError` is set and
the default diagnostic otherwise. The calls made are the logger call, what the
handlers did while the logger ran, and that one report; when the logger calls no
handler they are the logger call and the report. -/
theorem Flush_Shutdown_failure_reported_once (s : State σ) (lg : Logger σ) (e : GoError)
    (h : s.audit.logger = some lg) :
    ((flushed lg s).1 = some e →
      ∃ raised, (flushed lg s).2.trace = s.trace ++ Event.loggerFlush :: raised ∧
        (∀ ev ∈ raised, isLoggerCall ev = false) ∧
        Flush s = some (some e,
          { audit := s.audit,
            env := specErrorReportEnv s.audit (some e) (flushed lg s).2.env,
            trace := s.trace
              ++ Event.loggerFlush :: (raised ++ [specErrorReport s.audit (some e)]) })) ∧
    (∀ env, lg.Flush s.env = LoggerRun.ret (some e) env →
      Flush s = some (some e,
        { s with env := specErrorReportEnv s.audit (some e) env,
                 trace := s.trace ++ [Event.loggerFlush, specErrorReport s.audit (some e)] })) ∧
    ((shutDown lg s).1 = some e →
      ∃ raised, (shutDown lg s).2.trace = s.trace ++ Event.loggerShutdown :: raised ∧
        (∀ ev ∈ raised, isLoggerCall ev = false) ∧
        Shutdown s = some (some e,
          { audit := s.audit,
            env := specErrorReportEnv s.audit (some e) (shutDown lg s).2.env,
            trace := s.trace
              ++ Event.loggerShutdown :: (raised ++ [specErrorReport s.audit (some e)]) })) ∧
    (∀ env, lg.Shutdown s.env = LoggerRun.ret (some e) env →
      Shutdown s = some (some e,
        { s with env := specErrorReportEnv s.audit (some e) env,
                 trace := s.trace
                   ++ [Event.loggerShutdown, specErrorReport s.audit (some e)] })) := by
  refine ⟨?_, ?_, ?_, ?_⟩
  · intro hf
    obtain ⟨ha, raised, ht, hr⟩ := flushed_effect lg s
    refine ⟨raised, ht, hr, ?_⟩
    rw [Flush_eq s lg h, hf, if_pos (by simp), report_after_failure _ _ e ha, ht]
    simp
  · intro env hq
    have hfl := flushed_quiet lg s (some e) env hq
    rw [Flush_eq s lg h, hfl, if_pos (by simp)]
    simp only [onLoggerError_eq_report, List.append_assoc, List.singleton_append]
  · intro hf
    obtain ⟨ha, raised, ht, hr⟩ := shutDown_effect lg s
    refine ⟨raised, ht, hr, ?_⟩
    rw [Shutdown_eq s lg h, hf, if_pos (by simp), report_after_failure _ _ e ha, ht]
    simp
  · intro env hq
    have hfl := shutDown_quiet lg s (some e) env hq
    rw [Shutdown_eq s lg h, hfl, if_pos (by simp)]
    simp only [onLoggerError_eq_report, List.append_assoc, List.singleton_append]

theorem Flush_Shutdown_failure_reported_once_witness :
    hookedFailing.audit.logger = some failingLogger ∧
    Flush hookedFailing = some (some timeoutError,
      { hookedFailing with
          env := specErrorReportEnv hookedFailing.audit (some timeoutError) hookedFailing.env,
          trace := hookedFailing.trace
            ++ [Event.loggerFlush, specErrorReport hookedFailing.audit (some timeoutError)] }) ∧
    Shutdown hookedFailing = some (some timeoutError,
      { hookedFailing with
          env := specErrorReportEnv hookedFailing.audit (some timeoutError) hookedFailing.env,
          trace := hookedFailing.trace
            ++ [Event.loggerShutdown,
                specErrorReport hookedFailing.audit (some timeoutError)] }) :=
  ⟨rfl,
    (Flush_Shutdown_failure_reported_once hookedFailing failingLogger timeoutError rfl).2.1
      hookedFailing.env rfl,
    (Flush_Shutdown_failure_reported_once hookedFailing failingLogger timeoutError rfl).2.2.2
      hookedFailing.env rfl⟩

/-- C8, as stated, fails: the logger's flush hands a write failure to the error
handler registered by `Init` and then returns nil. `Flush` returns nil, yet
`OnError` has been called (when set), or the default diagnostic emitted (when
unset), during the operation. -/
theorem Flush_nil_yet_error_reported :
    (flushed noisyLogger hookedNoisy).1 = none ∧
    (Flush hookedNoisy).map (fun r => r.1) = some none ∧
    (Flush hookedNoisy).map (fun r => r.2.trace)
      = some [Event.loggerFlush, Event.OnError (some writeError)] ∧
    (Flush hookedNoisy).map (fun r => r.2.env.reported) = some [some writeError] ∧
    (flushed noisyLogger bareNoisy).1 = none ∧
    (Flush bareNoisy).map (fun r => r.1) = some none ∧
    (Flush bareNoisy).map (fun r => r.2.trace)
      = some [Event.loggerFlush,
          Event.diagnostic LvlError "Auditing error" [Field.Err (some writeError)]] := by
  refine ⟨rfl, rfl, rfl, rfl, rfl, rfl, rfl⟩

/-- C8, amended: `Flush` (`Shutdown`) returns what the logger's flush (shutdown)
returned. When that is nil it makes no call of its own after the logger call: the
state is the one the logger call left, so `OnError` is called or a diagnostic
emitted only if the logger itself reached the registered handler while it ran,
and when the logger calls no handler the logger call is the only call. In
general `Flush` (`Shutdown`) adds an error report of its own after the logger call
if and only if the logger call failed. -/
theorem Flush_Shutdown_own_report_iff_failure (s : State σ) (lg : Logger σ)
    (h : s.audit.logger = some lg) :
    ((flushed lg s).1 = none → Flush s = some (none, (flushed lg s).2)) ∧
    (∀ env, lg.Flush s.env = LoggerRun.ret none env →
      Flush s = some (none,
        { s with env := env, trace := s.trace ++ [Event.loggerFlush] })) ∧
    (∃ s' own, Flush s = some ((flushed lg s).1, s') ∧
      s'.trace = (flushed lg s).2.trace ++ own ∧
      (own.any isErrorReport = true ↔ (flushed lg s).1 ≠ none)) ∧
    ((shutDown lg s).1 = none → Shutdown s = some (none, (shutDown lg s).2)) ∧
    (∀ env, lg.Shutdown s.env = LoggerRun.ret none env →
      Shutdown s = some (none,
        { s with env := env, trace := s.trace ++ [Event.loggerShutdown] })) ∧
    (∃ s' own, Shutdown s = some ((shutDown lg s).1, s') ∧
      s'.trace = (shutDown lg s).2.trace ++ own ∧
      (own.any isErrorReport = true ↔ (shutDown lg s).1 ≠ none)) := by
  refine ⟨?_, ?_, ?_, ?_, ?_, ?_⟩
  · intro hf
    rw [Flush_eq s lg h, if_neg (not_not.mpr hf), hf]
  · intro env hq
    rw [Flush_eq s lg h, flushed_quiet lg s none env hq, if_neg (by simp)]
  · rw [Flush_eq s lg h]
    by_cases hf : (flushed lg s).1 = none
    · rw [if_neg (not_not.mpr hf)]
      exact ⟨_, [], rfl, by simp, by simp [hf]⟩
    · rw [if_pos hf, onLoggerError_eq_report]
      exact ⟨_, [specErrorReport (flushed lg s).2.audit (flushed lg s).1], rfl, rfl,
        by simp [hf, specErrorReport_isErrorReport]⟩
  · intro hf
    rw [Shutdown_eq s lg h, if_neg (not_not.mpr hf), hf]
  · intro env hq
    rw [Shutdown_eq s lg h, shutDown_quiet lg s none env hq, if_neg (by simp)]
  · rw [Shutdown_eq s lg h]
    by_cases hf : (shutDown lg s).1 = none
    · rw [if_neg (not_not.mpr hf)]
      exact ⟨_, [], rfl, by simp, by simp [hf]⟩
    · rw [if_pos hf, onLoggerError_eq_report]
      exact ⟨_, [specErrorReport (shutDown lg s).2.audit (shutDown lg s).1], rfl, rfl,
        by simp [hf, specErrorReport_isErrorReport]⟩

theorem Flush_Shutdown_own_report_iff_failure_witness :
    hookedHealthy.audit.logger = some healthyLogger ∧
    Flush hookedHealthy = some (none,
      { hookedHealthy with
          env := { hookedHealthy.env with queued := [] },
          trace := hookedHealthy.trace ++ [Event.loggerFlush] }) ∧
    Shutdown hookedHealthy = some (none,
      { hookedHealthy with
          env := { hookedHealthy.env with queued := [] },
          trace := hookedHealthy.trace ++ [Event.loggerShutdown] }) ∧
    hookedNoisy.audit.logger = some noisyLogger ∧
    (flushed noisyLogger hookedNoisy).1 = none ∧
    Flush hookedNoisy = some (none, (flushed noisyLogger hookedNoisy).2) :=
  ⟨rfl,
    (Flush_Shutdown_own_report_iff_failure hookedHealthy healthyLogger rfl).2.1 _ rfl,
    (Flush_Shutdown_own_report_iff_failure hookedHealthy healthyLogger rfl).2.2.2.2.1 _ rfl,
    rfl, rfl,
    (Flush_Shutdown_own_report_iff_failure hookedNoisy noisyLogger rfl).1 rfl⟩

/-- C7, as the spec states it, fails for `Configure`: the logger rejects the
configuration with an error, `Configure` returns that error, and neither the
application's `OnError` (when set) nor the default diagnostic (when unset) is
reached; the only call made is the logger call. -/
theorem Configure_failure_not_reported :
    (configured failingLogger [] hookedFailing).1 = some badTargetError ∧
    (Configure [] hookedFailing).map (fun r => r.1) = some (some badTargetError) ∧
    (Configure [] hookedFailing).map (fun r => r.2.trace)
      = some [Event.loggerConfigureTargets []] ∧
    (Configure [] hookedFailing).map (fun r => r.2.trace.any isErrorReport) = some false ∧
    (Configure [] hookedFailing).map (fun r => r.2.env.reported) = some [] ∧
    (Configure [] bareFailing).map (fun r => r.1) = some (some badTargetError) ∧
    (Configure [] bareFailing).map (fun r => r.2.trace)
      = some [Event.loggerConfigureTargets []] ∧
    (Configure [] bareFailing).map (fun r => r.2.trace.any isErrorReport) = some false := by
  refine ⟨rfl, rfl, rfl, rfl, rfl, rfl, rfl, rfl⟩

/-- C7, amended: a failure `e` of the logger's flush or shutdown is returned to the
caller and reported: after the logger call the calls made grow by the error report
for `e` (`OnError(e)` when `OnError` is set, the default diagnostic otherwise) and
the outside world is what that report made of it. A failure `e` of the logger's
configure is returned to the caller and `Configure` makes no call of its own after
the logger call: the state is the one the logger call left, and when the logger
calls no handler the logger call is the only call. -/
theorem failures_returned_and_flush_shutdown_reported (cfg : LoggerConfiguration)
    (s : State σ) (lg : Logger σ) (e : GoError) (h : s.audit.logger = some lg) :
    ((flushed lg s).1 = some e →
      ∃ s', Flush s = some (some e, s') ∧
        s'.trace = (flushed lg s).2.trace ++ [specErrorReport s.audit (some e)] ∧
        s'.env = specErrorReportEnv s.audit (some e) (flushed lg s).2.env) ∧
    ((shutDown lg s).1 = some e →
      ∃ s', Shutdown s = some (some e, s') ∧
        s'.trace = (shutDown lg s).2.trace ++ [specErrorReport s.audit (some e)] ∧
        s'.env = specErrorReportEnv s.audit (some e) (shutDown lg s).2.env) ∧
    ((configured lg cfg s).1 = some e →
      ∃ s', Configure cfg s = some (some e, s') ∧
        s'.trace = (configured lg cfg s).2.trace ∧
        s'.env = (configured lg cfg s).2.env) ∧
    (∀ env, lg.ConfigureTargets cfg s.env = LoggerRun.ret (some e) env →
      Configure cfg s = some (some e,
        { s with env := env, trace := s.trace ++ [Event.loggerConfigureTargets cfg] })) := by
  refine ⟨?_, ?_, ?_, ?_⟩
  · intro hf
    rw [Flush_eq s lg h, hf, if_pos (by simp),
      report_after_failure _ s.audit e (flushed_effect lg s).1]
    exact ⟨_, rfl, rfl, rfl⟩
  · intro hf
    rw [Shutdown_eq s lg h, hf, if_pos (by simp),
      report_after_failure _ s.audit e (shutDown_effect lg s).1]
    exact ⟨_, rfl, rfl, rfl⟩
  · intro hf
    rw [Configure_eq cfg s lg h]
    exact ⟨(configured lg cfg s).2, by rw [← hf], rfl, rfl⟩
  · intro env hq
    rw [Configure_eq cfg s lg h, configured_quiet lg cfg s (some e) env hq]

theorem failures_returned_and_flush_shutdown_reported_witness :
    hookedNoisy.audit.logger = some noisyLogger ∧
    (shutDown noisyLogger hookedNoisy).1 = some timeoutError ∧
    (∃ s', Shutdown hookedNoisy = some (some timeoutError, s') ∧
      s'.trace = (shutDown noisyLogger hookedNoisy).2.trace
        ++ [specErrorReport hookedNoisy.audit (some timeoutError)] ∧
      s'.env = specErrorReportEnv hookedNoisy.audit (some timeoutError)
        (shutDown noisyLogger hookedNoisy).2.env) ∧
    bareFailing.audit.logger = some failingLogger ∧
    (flushed failingLogger bareFailing).1 = some timeoutError ∧
    (∃ s', Flush bareFailing = some (some timeoutError, s') ∧
      s'.trace = (flushed failingLogger bareFailing).2.trace
        ++ [specErrorReport bareFailing.audit (some timeoutError)] ∧
      s'.env = specErrorReportEnv bareFailing.audit (some timeoutError)
        (flushed failingLogger bareFailing).2.env) ∧
    Configure [] bareFailing = some (some badTargetError,
      { bareFailing with
          env := bareFailing.env,
          trace := bareFailing.trace ++ [Event.loggerConfigureTargets []] }) :=
  ⟨rfl, rfl,
    (failures_returned_and_flush_shutdown_reported [] hookedNoisy noisyLogger timeoutError
      rfl).2.1 rfl,
    rfl, rfl,
    (failures_returned_and_flush_shutdown_reported [] bareFailing failingLogger timeoutError
      rfl).1 rfl,
    (failures_returned_and_flush_shutdown_reported [] bareFailing failingLogger badTargetError
      rfl).2.2.2 _ rfl⟩

end audit
